import Mathlib

/-!
Verification of the annotation rendering and composition engine of the
rmapi repository (annotations/pdf_cairo.go), against its natural-language
specification.

The Go source is shallowly embedded below.  Conventions:
* float64 values are modelled as exact rationals (ℚ); every numeric literal
  of the source (1.33, 10.8, 0.5, 30, 6.0, ...) is embedded as the exact
  rational it denotes.  All comparisons in the source stay on the same side
  of the branch for the exact values involved, so the ℚ model is faithful
  for the properties proved here.
* calls against the cairo drawing context/surface are recorded as a trace
  of operations (DrawOp).  The cairo paginated PDF surface (an external
  collaborator per the spec) is modelled by Surface below: ShowPage emits
  the pending page, and Finish emits the pending page only when no page has
  been emitted yet or the pending page received a painting operation
  (cairo-paginated-surface.c finishes with
  "if (!surface->base.is_clear || surface->page_num == 1) show_page",
  where is_clear is cleared exactly by painting operations such as
  stroke and show_text, not by path or state operations).
-/

namespace Rmapi

/-- Device pixel width of the capture device (source constant DeviceWidth). -/
def DeviceWidth : ℚ := 1404

/-- Device pixel height of the capture device (source constant DeviceHeight). -/
def DeviceHeight : ℚ := 1872

/-- Default page size for blank templates, in PDF points (source rmPageSize). -/
def rmPageSize : ℚ × ℚ := (445, 594)

/-- A device-space stroke point (encoding/rm Point, fields used by the renderer). -/
structure Point where
  X : ℚ
  Y : ℚ
deriving DecidableEq, Repr

/-- Brush type of a line (encoding/rm).  The renderer only distinguishes
Eraser, HighlighterV5 and everything else; remaining variants are collapsed
into Other, indexed so every other brush type is representable. -/
inductive BrushType where
  | Eraser
  | HighlighterV5
  | Other (code : ℕ)
deriving DecidableEq, Repr

/-- Brush color of a line (encoding/rm).  Unrecognized values are
representable through Other. -/
inductive BrushColor where
  | Black
  | White
  | Grey
  | Other (code : ℕ)
deriving DecidableEq, Repr

/-- A line of stroke data (encoding/rm Line, fields used by the renderer). -/
structure Line where
  BrushType : BrushType
  BrushColor : BrushColor
  BrushSize : ℚ
  Points : List Point
deriving DecidableEq, Repr

/-- A layer of lines (encoding/rm Layer). -/
structure Layer where
  Lines : List Line
deriving DecidableEq, Repr

/-- Parsed stroke data of one page (encoding/rm Rm). -/
structure Rm where
  Layers : List Layer
deriving DecidableEq, Repr

/-- One page of the archive: optional stroke data (archive page,
pageAnnotations.Data; none models a nil Data pointer, i.e. a blank page). -/
structure PageEntry where
  Data : Option Rm
deriving DecidableEq, Repr

/-- Content metadata of the archive (archive Content, field used by Generate). -/
structure ContentInfo where
  FileType : String
deriving DecidableEq, Repr

/-- The parsed archive (archive Zip, fields used by Generate): content
metadata, the raw background-document bytes (Payload, empty when absent)
and the ordered pages. -/
structure Zip where
  Content : ContentInfo
  Payload : List ℕ
  Pages : List PageEntry
deriving DecidableEq, Repr

/-- Generator options (source PdfGeneratorOptions). -/
structure PdfGeneratorOptions where
  AddPageNumbers : Bool
  AllPages : Bool
  AnnotationsOnly : Bool
deriving DecidableEq, Repr

/-- The generator (source PdfGenerator; the two file-path fields are not
modelled by name, file contents are tracked directly by the functions below). -/
structure PdfGenerator where
  options : PdfGeneratorOptions
  backgroundPDF : Option (List ℕ)
  template : Bool
deriving DecidableEq, Repr

/-- Line cap styles used by the source (cairo). -/
inductive LineCap where
  | Butt
  | Round
  | Square
deriving DecidableEq, Repr

/-- Line join styles used by the source (cairo). -/
inductive LineJoin where
  | Miter
  | Round
  | Bevel
deriving DecidableEq, Repr

/-- One call against the cairo context/surface, as issued by the source. -/
inductive DrawOp where
  | SetSourceRGBA (r g b a : ℚ)
  | SetSourceRGB (r g b : ℚ)
  | SetLineWidth (w : ℚ)
  | SetLineCap (c : LineCap)
  | SetLineJoin (j : LineJoin)
  | MoveTo (x y : ℚ)
  | LineTo (x y : ℚ)
  | Stroke
  | Save
  | Restore
  | SelectFontFace (family : String)
  | SetFontSize (size : ℚ)
  | ShowText (text : String)
  | SetPageSize (w h : ℚ)
deriving DecidableEq, Repr

/-- Painting operations: exactly these clear cairo's is_clear flag on the
paginated surface (stroke and show_text reach the target surface; path and
state operations do not). -/
def isPaintOp : DrawOp → Bool
  | DrawOp.Stroke => true
  | DrawOp.ShowText _ => true
  | _ => false

/-- The cairo paginated PDF surface (external collaborator): already emitted
pages plus the operations recorded on the pending page. -/
structure Surface where
  pages : List (List DrawOp)
  current : List DrawOp
deriving DecidableEq, Repr

/-- Record operations on the pending page. -/
def Surface.emit (s : Surface) (ops : List DrawOp) : Surface :=
  { pages := s.pages, current := s.current ++ ops }

/-- cairo show_page: emit the pending page (blank or not) and start a new one. -/
def Surface.showPage (s : Surface) : Surface :=
  { pages := s.pages ++ [s.current], current := [] }

/-- cairo surface finish: emit the pending page only if it was painted on
or no page has been emitted yet (a trailing blank page is suppressed). -/
def Surface.finish (s : Surface) : List (List DrawOp) :=
  if s.pages.isEmpty || s.current.any isPaintOp then s.pages ++ [s.current] else s.pages

/-- Source function normalized: scale a device point (no Y-flip here). -/
def normalized (p1 : Point) (scale : ℚ) : ℚ × ℚ :=
  (p1.X * scale, p1.Y * scale)

/-- Device point mapped into PDF space, as done at each drawing site of the
source: normalized, then y flipped against the page height. -/
def mappedPoint (pt : Point) (scale pageHeight : ℚ) : ℚ × ℚ :=
  let xy := normalized pt scale
  (xy.1, pageHeight - xy.2)

/-- Per-page scale computation of generateAnnotationsOnly (source lines
151-161): ratio = pageHeight / pageWidth, threshold 1.33. -/
def scaleFor (pageWidth pageHeight : ℚ) : ℚ :=
  let ratio := pageHeight / pageWidth
  if ratio < 1.33 then pageWidth / DeviceWidth else pageHeight / DeviceHeight

/-- Stroke color switch of drawStroke (source lines 304-314). -/
def strokeRGB (c : BrushColor) : ℚ × ℚ × ℚ :=
  match c with
  | BrushColor.Black => (0, 0, 0)
  | BrushColor.White => (1, 1, 1)
  | BrushColor.Grey => (1/2, 1/2, 1/2)
  | _ => (0, 0, 0)

/-- Stroke width formula of drawStroke (source lines 317-322):
BrushSize*6.0 - 10.8, raised to 0.5 when smaller. -/
def strokeWidth (brushSize : ℚ) : ℚ :=
  let w := brushSize * 6.0 - 10.8
  if w < 0.5 then 0.5 else w

/-- The open path drawn by drawStroke's loop (source lines 330-340):
first point is a move, subsequent points are line segments. -/
def strokePath (points : List Point) (scale pageHeight : ℚ) : List DrawOp :=
  match points with
  | [] => []
  | p0 :: rest =>
    let m := mappedPoint p0 scale pageHeight
    DrawOp.MoveTo m.1 m.2 ::
      rest.map (fun pt =>
        let q := mappedPoint pt scale pageHeight
        DrawOp.LineTo q.1 q.2)

/-- Source drawStroke: color, width, round caps and joins, open path, one
stroke; nothing for an empty point list. -/
def drawStroke (line : Line) (scale pageHeight : ℚ) : List DrawOp :=
  if line.Points.length < 1 then []
  else
    let rgb := strokeRGB line.BrushColor
    [DrawOp.SetSourceRGB rgb.1 rgb.2.1 rgb.2.2,
     DrawOp.SetLineWidth (strokeWidth line.BrushSize),
     DrawOp.SetLineCap LineCap.Round,
     DrawOp.SetLineJoin LineJoin.Round] ++
    strokePath line.Points scale pageHeight ++ [DrawOp.Stroke]

/-- Source drawHighlighter: a single straight band between the first and
last point's x at the first point's y, yellow at 50% alpha, width scale*30,
butt caps; nothing for fewer than 2 points. -/
def drawHighlighter (line : Line) (scale pageHeight : ℚ) : List DrawOp :=
  match line.Points with
  | p0 :: p1 :: rest =>
    let plast := (p1 :: rest).getLastD p0
    let n0 := normalized p0 scale
    let x1 := n0.1
    let y1 := n0.2
    let x2 := (normalized plast scale).1
    let width := scale * 30
    let y1b := y1 + width / 2
    let y := pageHeight - y1b
    [DrawOp.SetSourceRGBA 1.0 1.0 0.0 0.5,
     DrawOp.SetLineWidth width,
     DrawOp.SetLineCap LineCap.Butt,
     DrawOp.MoveTo x1 y,
     DrawOp.LineTo x2 y,
     DrawOp.Stroke]
  | _ => []

/-- Per-line dispatch of drawAnnotations (source lines 251-265): skip empty
lines and erasers, highlighter band for HighlighterV5, plain stroke else. -/
def lineOps (line : Line) (scale pageHeight : ℚ) : List DrawOp :=
  if line.Points.length < 1 then []
  else if line.BrushType = BrushType.Eraser then []
  else if line.BrushType = BrushType.HighlighterV5 then
    drawHighlighter line scale pageHeight
  else
    drawStroke line scale pageHeight

/-- Source drawAnnotations: save, all layers in order, each layer's lines in
order, restore. -/
def drawAnnotations (rm : Rm) (scale pageHeight : ℚ) : List DrawOp :=
  [DrawOp.Save] ++
  (rm.Layers.flatMap fun layer =>
    layer.Lines.flatMap fun line => lineOps line scale pageHeight) ++
  [DrawOp.Restore]

/-- Source drawPageNumber: small sans-serif label at the bottom-right. -/
def drawPageNumber (pageNum : ℕ) (pageWidth pageHeight : ℚ) : List DrawOp :=
  [DrawOp.Save,
   DrawOp.SelectFontFace "sans-serif",
   DrawOp.SetFontSize 8.0,
   DrawOp.SetSourceRGB 0 0 0,
   DrawOp.MoveTo (pageWidth - 20) (pageHeight - 10),
   DrawOp.ShowText (toString pageNum),
   DrawOp.Restore]

/-- Number of painting operations of a trace ("drawn elements" of a page). -/
def drawnElements (ops : List DrawOp) : ℕ :=
  (ops.filter isPaintOp).length

/-- First page dimensions of generateAnnotationsOnly (source lines 115-122):
both branches of the template test use the fixed fallback size; the non-template
branch carries a TODO to some day read the background dimensions instead. -/
def firstDims (template : Bool) : ℚ × ℚ :=
  if template then rmPageSize else rmPageSize

/-- Everything recorded on the surface for one included page, given its
1-based output index cnt (source loop body, lines 139-173): a page resize for
pages after the first (both template branches again use the fixed fallback
size), the annotations when stroke data is present using the scale computed
from the first page dimensions, and the optional page-number label. -/
def pageOps (p : PdfGenerator) (firstWidth firstHeight : ℚ) (cnt : ℕ)
    (pg : PageEntry) : List DrawOp :=
  (if 1 < cnt then
    (let pr := if p.template then rmPageSize else rmPageSize
     [DrawOp.SetPageSize pr.1 pr.2])
   else []) ++
  (let pageWidth := firstWidth
   let pageHeight := firstHeight
   let scale := scaleFor pageWidth pageHeight
   (match pg.Data with
    | some rm => drawAnnotations rm scale pageHeight
    | none => []) ++
   (if p.options.AddPageNumbers then drawPageNumber cnt pageWidth pageHeight
    else []))

/-- The page loop of generateAnnotationsOnly (source lines 128-179), as a
recursion over the remaining pages; n is the total source page count
(len(zip.Pages)), cnt is pageCount.  A page without content is skipped
entirely unless AllPages is set; an included page records its operations and
then advances the surface when pageCount < n or AllPages is set. -/
def renderLoop (p : PdfGenerator) (n : ℕ) (firstWidth firstHeight : ℚ) :
    List PageEntry → Surface → ℕ → Surface × ℕ
  | [], s, cnt => (s, cnt)
  | pg :: rest, s, cnt =>
    if !p.options.AllPages && !pg.Data.isSome then
      renderLoop p n firstWidth firstHeight rest s cnt
    else
      let cnt1 := cnt + 1
      let s1 := s.emit (pageOps p firstWidth firstHeight cnt1 pg)
      let s2 := if cnt1 < n || p.options.AllPages then s1.showPage else s1
      renderLoop p n firstWidth firstHeight rest s2 cnt1

/-- Source generateAnnotationsOnly (lines 105-185), as the sequence of pages
of the finished cairo surface.  The surface starts with one pending blank
page of the first-page dimensions, the loop runs over all source pages, and
Finish flushes the surface. -/
def generateAnnotationsOnly (p : PdfGenerator) (zip : Zip) : List (List DrawOp) :=
  let fd := firstDims p.template
  (renderLoop p zip.Pages.length fd.1 fd.2 zip.Pages { pages := [], current := [] } 0).1.finish

/-- Serialization of a finished surface into the bytes of the written PDF
file.  Any fixed deterministic encoding represents the cairo PDF writer for
the purposes of the claims below; this one starts with the PDF header
magic and separates pages by a 255 marker. -/
def encodeRat (q : ℚ) : List ℕ :=
  [q.num.natAbs, if q.num < 0 then 1 else 0, q.den]

/-- Byte encoding of one recorded operation. -/
def encodeOp : DrawOp → List ℕ
  | DrawOp.SetSourceRGBA r g b a => 0 :: (encodeRat r ++ encodeRat g ++ encodeRat b ++ encodeRat a)
  | DrawOp.SetSourceRGB r g b => 1 :: (encodeRat r ++ encodeRat g ++ encodeRat b)
  | DrawOp.SetLineWidth w => 2 :: encodeRat w
  | DrawOp.SetLineCap c => [3, match c with | LineCap.Butt => 0 | LineCap.Round => 1 | LineCap.Square => 2]
  | DrawOp.SetLineJoin j => [4, match j with | LineJoin.Miter => 0 | LineJoin.Round => 1 | LineJoin.Bevel => 2]
  | DrawOp.MoveTo x y => 5 :: (encodeRat x ++ encodeRat y)
  | DrawOp.LineTo x y => 6 :: (encodeRat x ++ encodeRat y)
  | DrawOp.Stroke => [7]
  | DrawOp.Save => [8]
  | DrawOp.Restore => [9]
  | DrawOp.SelectFontFace f => 10 :: (f.toList.map Char.toNat)
  | DrawOp.SetFontSize sz => 11 :: encodeRat sz
  | DrawOp.ShowText t => 12 :: (t.toList.map Char.toNat)
  | DrawOp.SetPageSize w h => 13 :: (encodeRat w ++ encodeRat h)

/-- Bytes of the PDF file written for a finished surface. -/
def pdfBytes (pages : List (List DrawOp)) : List ℕ :=
  [37, 80, 68, 70] ++ pages.flatMap (fun ops => 255 :: ops.flatMap encodeOp)

/-- Modelled from the spec: the Background Inspector delegates structural
validation of the background bytes to the external PDF collaborator
(pdfcpu api.ReadContext, not part of this repository); §4.5 requires it to
fail exactly when the bytes cannot be parsed as a valid PDF structure.
Parseability is modelled as the bytes carrying the PDF header magic. -/
def pdfParses (bytes : List ℕ) : Bool :=
  bytes.take 4 = [37, 80, 68, 70]

/-- Source initBackgroundPages (lines 358-380): a non-empty payload must
parse as a PDF and becomes the background (template off); an empty payload
selects the blank template.  The encryption check only logs. -/
def initBackgroundPages (p : PdfGenerator) (pdfArr : List ℕ) : Except String PdfGenerator :=
  if 0 < pdfArr.length then
    if pdfParses pdfArr then
      Except.ok { p with backgroundPDF := some pdfArr, template := false }
    else
      Except.error "failed to read PDF"
  else
    Except.ok { p with template := true }

/-- Result of one overlay run (generateWithBackground): the byte streams
handed to pdfcpu api.MergeRaw in call order, the bytes present at the
output destination when the call returns, and whether an error was returned. -/
structure OverlayRun where
  mergeInputs : List (List ℕ)
  destContent : List ℕ
  err : Bool
deriving DecidableEq, Repr

/-- Source generateWithBackground (lines 187-244).  The external merge
collaborator is a parameter (none models a merge failure).  Data flow of the
source, traced on file contents:
* tmpAnnotations is created and closed and never written, so its content
  stays empty;
* the call p.generateAnnotationsOnly(zip) writes its finished document to
  p.outputFilePath (that is the only destination generateAnnotationsOnly
  writes to);
* the background bytes are written to tmpBackground;
* os.Create(p.outputFilePath) truncates the destination before the merge;
* MergeRaw receives [tmpBackground content, tmpAnnotations content] in that
  order and on success its output becomes the destination content; on
  failure the truncated destination file remains (pdfcpu may additionally
  have written a partial prefix into it; the truncated file is the minimal
  faithful model). -/
def generateWithBackground (p : PdfGenerator) (zip : Zip)
    (mergeRaw : List (List ℕ) → Option (List ℕ)) : OverlayRun :=
  let tmpAnnotationsContent : List ℕ := []
  let destAfterStep1 := pdfBytes (generateAnnotationsOnly p zip)
  let tmpBackgroundContent := p.backgroundPDF.getD []
  let destTruncated : List ℕ := []
  let inputs := [tmpBackgroundContent, tmpAnnotationsContent]
  let _ := destAfterStep1
  match mergeRaw inputs with
  | some merged => { mergeInputs := inputs, destContent := merged, err := false }
  | none => { mergeInputs := inputs, destContent := destTruncated, err := true }

/-- Outcome of Generate: an error, a blank-mode document written to the
destination, or an overlay run. -/
inductive GenResult where
  | error (msg : String)
  | blank (pages : List (List DrawOp))
  | overlay (run : OverlayRun)
deriving DecidableEq, Repr

/-- Source Generate (lines 65-103): reject epub, initialize the background
from the payload, reject empty documents, then route: overlay when a
background is present and AnnotationsOnly is off, blank otherwise. -/
def Generate (p : PdfGenerator) (zip : Zip)
    (mergeRaw : List (List ℕ) → Option (List ℕ)) : GenResult :=
  if zip.Content.FileType = "epub" then GenResult.error "only pdf and notebooks supported"
  else
    match initBackgroundPages p zip.Payload with
    | Except.error e => GenResult.error e
    | Except.ok p1 =>
      if zip.Pages.length = 0 then GenResult.error "the document has no pages"
      else if p1.backgroundPDF.isSome && !p1.options.AnnotationsOnly then
        GenResult.overlay (generateWithBackground p1 zip mergeRaw)
      else
        GenResult.blank (generateAnnotationsOnly p1 zip)

/-- Derived generation mode of the spec (§3, §4.4). -/
inductive GenMode where
  | Blank
  | Overlay
deriving DecidableEq, Repr

/-- The mode decision exactly as Generate takes it (source line 97). -/
def generateMode (p : PdfGenerator) : GenMode :=
  if p.backgroundPDF.isSome && !p.options.AnnotationsOnly then GenMode.Overlay
  else GenMode.Blank

/-- Whether the loop includes a page: AllPages set or stroke data present
(negation of the source skip test at line 133). -/
def incl (p : PdfGenerator) (pg : PageEntry) : Bool :=
  p.options.AllPages || pg.Data.isSome

/-- Number of included pages of a page list: the final pageCount of the loop. -/
def countIncl (p : PdfGenerator) : List PageEntry → ℕ
  | [] => 0
  | pg :: rest => (if incl p pg then 1 else 0) + countIncl p rest

/-- The operation lists the loop records for the included pages of l, when
the pageCount before l is cnt. -/
def emittedOps (p : PdfGenerator) (firstWidth firstHeight : ℚ) :
    ℕ → List PageEntry → List (List DrawOp)
  | _, [] => []
  | cnt, pg :: rest =>
    if incl p pg then
      pageOps p firstWidth firstHeight (cnt + 1) pg ::
        emittedOps p firstWidth firstHeight (cnt + 1) rest
    else
      emittedOps p firstWidth firstHeight cnt rest

/-! Helper lemmas about the page loop. -/

theorem getLastD_irrel {α : Type} (l : List α) (h : l ≠ []) (d d' : α) :
    l.getLastD d = l.getLastD d' := by
  cases l with
  | nil => exact absurd rfl h
  | cons a t =>
    rw [List.getLastD_eq_getLast?, List.getLastD_eq_getLast?, List.getLast?_cons]
    rfl

theorem countIncl_le_length (p : PdfGenerator) :
    ∀ l : List PageEntry, countIncl p l ≤ l.length := by
  intro l
  induction l with
  | nil => simp [countIncl]
  | cons pg rest ih =>
    by_cases h : incl p pg <;> simp [countIncl, h] <;> omega

theorem emittedOps_length (p : PdfGenerator) (fw fh : ℚ) :
    ∀ (l : List PageEntry) (cnt : ℕ),
      (emittedOps p fw fh cnt l).length = countIncl p l := by
  intro l
  induction l with
  | nil => intro cnt; simp [emittedOps, countIncl]
  | cons pg rest ih =>
    intro cnt
    by_cases h : incl p pg
    · simp [emittedOps, countIncl, h, ih]
      omega
    · simp [emittedOps, countIncl, h, ih]

theorem emittedOps_eq_nil (p : PdfGenerator) (fw fh : ℚ) (l : List PageEntry) (cnt : ℕ)
    (h : countIncl p l = 0) : emittedOps p fw fh cnt l = [] := by
  have := emittedOps_length p fw fh l cnt
  rw [h] at this
  exact List.length_eq_zero.mp this

theorem renderLoop_of_no_included (p : PdfGenerator) (n : ℕ) (fw fh : ℚ) :
    ∀ (l : List PageEntry), countIncl p l = 0 →
      ∀ (s : Surface) (cnt : ℕ), renderLoop p n fw fh l s cnt = (s, cnt) := by
  intro l
  induction l with
  | nil => intro _ s cnt; rfl
  | cons pg rest ih =>
    intro h s cnt
    by_cases hI : incl p pg
    · simp [countIncl, hI] at h
    · have hA : p.options.AllPages = false := by
        simp [incl] at hI
        exact hI.1
      have hD : pg.Data = none := by
        simp [incl] at hI
        exact hI.2
      have hrest : countIncl p rest = 0 := by
        simpa [countIncl, hI] using h
      simp [renderLoop, hA, hD, ih hrest]

theorem renderLoop_spec (p : PdfGenerator) (n : ℕ) (fw fh : ℚ) :
    ∀ (l : List PageEntry) (pgs : List (List DrawOp)) (cnt : ℕ),
      cnt + countIncl p l ≤ n →
      renderLoop p n fw fh l { pages := pgs, current := [] } cnt =
        (if p.options.AllPages = true ∨ cnt + countIncl p l < n ∨ countIncl p l = 0 then
          ({ pages := pgs ++ emittedOps p fw fh cnt l, current := [] }, cnt + countIncl p l)
        else
          ({ pages := pgs ++ (emittedOps p fw fh cnt l).dropLast,
             current := (emittedOps p fw fh cnt l).getLastD [] }, cnt + countIncl p l)) := by
  intro l
  induction l with
  | nil =>
    intro pgs cnt _
    simp [renderLoop, countIncl, emittedOps]
  | cons pg rest ih =>
    intro pgs cnt h
    by_cases hI : incl p pg
    · -- included page
      have hk : countIncl p (pg :: rest) = 1 + countIncl p rest := by
        simp [countIncl, hI]
      have hE : emittedOps p fw fh cnt (pg :: rest) =
          pageOps p fw fh (cnt + 1) pg :: emittedOps p fw fh (cnt + 1) rest := by
        simp [emittedOps, hI]
      have hskip : (!p.options.AllPages && !pg.Data.isSome) = false := by
        simp [incl] at hI
        rcases hI with hI | hI <;> simp [hI]
      rw [hk] at h ⊢
      rw [hE]
      by_cases hS : (cnt + 1 < n || p.options.AllPages) = true
      · -- the page issues a ShowPage
        have hstep : renderLoop p n fw fh (pg :: rest) { pages := pgs, current := [] } cnt =
            renderLoop p n fw fh rest
              { pages := pgs ++ [pageOps p fw fh (cnt + 1) pg], current := [] } (cnt + 1) := by
          simp [renderLoop, hskip, hS, Surface.emit, Surface.showPage]
          intro hA hD
          rw [hA, hD] at hskip
          simp at hskip
        rw [hstep, ih (pgs ++ [pageOps p fw fh (cnt + 1) pg]) (cnt + 1) (by omega)]
        have hScond : p.options.AllPages = true ∨ cnt + 1 < n := by
          rcases Bool.or_eq_true_iff.mp hS with h1 | h1
          · right; exact of_decide_eq_true h1
          · left; exact h1
        by_cases hk0 : countIncl p rest = 0
        · have hE0 : emittedOps p fw fh (cnt + 1) rest = [] :=
            emittedOps_eq_nil p fw fh rest (cnt + 1) hk0
          have hc2 : p.options.AllPages = true ∨ cnt + 1 + countIncl p rest < n ∨
              countIncl p rest = 0 := Or.inr (Or.inr hk0)
          have hgoal : p.options.AllPages = true ∨ cnt + (1 + countIncl p rest) < n ∨
              1 + countIncl p rest = 0 := by
            rcases hScond with h1 | h1
            · left; exact h1
            · right; left; omega
          rw [if_pos hc2, if_pos hgoal]
          rw [hk0, hE0]
          simp
        · -- more included pages follow
          have hE' : emittedOps p fw fh (cnt + 1) rest ≠ [] := by
            intro hnil
            have := emittedOps_length p fw fh rest (cnt + 1)
            rw [hnil] at this
            simp at this
            omega
          have harith : cnt + 1 + countIncl p rest = cnt + (1 + countIncl p rest) := by omega
          have hciff : (p.options.AllPages = true ∨ cnt + 1 + countIncl p rest < n ∨ countIncl p rest = 0)
              ↔ (p.options.AllPages = true ∨ cnt + (1 + countIncl p rest) < n ∨ 1 + countIncl p rest = 0) := by
            constructor
            · rintro (h1 | h1 | h1)
              · left; exact h1
              · right; left; omega
              · exact absurd h1 hk0
            · rintro (h1 | h1 | h1)
              · left; exact h1
              · right; left; omega
              · omega
          by_cases hc : p.options.AllPages = true ∨ cnt + (1 + countIncl p rest) < n ∨ 1 + countIncl p rest = 0
          · simp only [if_pos hc, if_pos (hciff.mpr hc)]
            simp [harith]
          · simp only [if_neg hc, if_neg (fun hx => hc (hciff.mp hx))]
            rw [List.dropLast_cons_of_ne_nil hE', List.getLastD_cons]
            rw [getLastD_irrel _ hE' (pageOps p fw fh (cnt + 1) pg) []]
            simp [harith]
      · -- no ShowPage: this must be the last source page without AllPages
        have hn1 : ¬ (cnt + 1 < n) := by
          intro hlt
          exact hS (by simp [hlt])
        have hA : p.options.AllPages = false := by
          rcases hb : p.options.AllPages with _ | _
          · rfl
          · exact absurd (by simp [hb]) hS
        have hk0 : countIncl p rest = 0 := by omega
        have hn : ¬ (cnt + (1 + countIncl p rest) < n) := by omega
        have hE0 : emittedOps p fw fh (cnt + 1) rest = [] :=
          emittedOps_eq_nil p fw fh rest (cnt + 1) hk0
        have hstep : renderLoop p n fw fh (pg :: rest) { pages := pgs, current := [] } cnt =
            renderLoop p n fw fh rest
              { pages := pgs, current := pageOps p fw fh (cnt + 1) pg } (cnt + 1) := by
          have hS' : (cnt + 1 < n || p.options.AllPages) = false := by
            simp [hn1, hA]
          simp [renderLoop, hskip, hS', Surface.emit]
          intro hA2 hD
          rw [hA2, hD] at hskip
          simp at hskip
        rw [hstep, renderLoop_of_no_included p n fw fh rest hk0 _ (cnt + 1)]
        have hcond : ¬ (p.options.AllPages = true ∨ cnt + (1 + countIncl p rest) < n ∨
            1 + countIncl p rest = 0) := by
          rintro (h1 | h1 | h1)
          · rw [hA] at h1; exact Bool.false_ne_true h1
          · exact hn h1
          · omega
        rw [if_neg hcond]
        simp [hE0, hk0]
    · -- skipped page: AllPages unset and no stroke data
      have hA : p.options.AllPages = false := by
        simp [incl] at hI
        exact hI.1
      have hD : pg.Data = none := by
        simp [incl] at hI
        exact hI.2
      have hk : countIncl p (pg :: rest) = countIncl p rest := by
        simp [countIncl, hI]
      have hE : emittedOps p fw fh cnt (pg :: rest) = emittedOps p fw fh cnt rest := by
        simp [emittedOps, hI]
      rw [hk] at h ⊢
      rw [hE]
      have hstep : renderLoop p n fw fh (pg :: rest) { pages := pgs, current := [] } cnt =
          renderLoop p n fw fh rest { pages := pgs, current := [] } cnt := by
        simp [renderLoop, hA, hD]
      rw [hstep]
      exact ih pgs cnt h

theorem finish_of_paint (pgs : List (List DrawOp)) (cur : List DrawOp)
    (h : cur.any isPaintOp = true) :
    Surface.finish { pages := pgs, current := cur } = pgs ++ [cur] := by
  unfold Surface.finish
  rw [h, Bool.or_true]
  simp

theorem finish_of_blank (pgs : List (List DrawOp)) (cur : List DrawOp)
    (hne : pgs.isEmpty = false) (h : cur.any isPaintOp = false) :
    Surface.finish { pages := pgs, current := cur } = pgs := by
  unfold Surface.finish
  rw [h, hne]
  simp

/-- Exact page count of a blank-mode render: 1 when everything is skipped,
the included-page count when the last included page advanced the surface or
painted, and one less when the final pending page is blank and suppressed
at finish.  The proof goes through renderLoop_spec and the finish model. -/
theorem generateAnnotationsOnly_length (p : PdfGenerator) (zip : Zip) :
    (generateAnnotationsOnly p zip).length =
      (if countIncl p zip.Pages = 0 then 1
       else if p.options.AllPages = true ∨ countIncl p zip.Pages < zip.Pages.length ∨
               zip.Pages.length = 1 ∨
               ((emittedOps p (firstDims p.template).1 (firstDims p.template).2 0
                   zip.Pages).getLastD []).any isPaintOp = true then
         countIncl p zip.Pages
       else
         countIncl p zip.Pages - 1) := by
  have hle : countIncl p zip.Pages ≤ zip.Pages.length := countIncl_le_length p zip.Pages
  have hlen := emittedOps_length p (firstDims p.template).1 (firstDims p.template).2 zip.Pages 0
  unfold generateAnnotationsOnly
  show ((renderLoop p zip.Pages.length (firstDims p.template).1 (firstDims p.template).2
      zip.Pages { pages := [], current := [] } 0).1.finish).length = _
  rw [renderLoop_spec p zip.Pages.length (firstDims p.template).1 (firstDims p.template).2
    zip.Pages [] 0 (by omega)]
  by_cases hc : p.options.AllPages = true ∨
      0 + countIncl p zip.Pages < zip.Pages.length ∨ countIncl p zip.Pages = 0
  · rw [if_pos hc]
    by_cases hk0 : countIncl p zip.Pages = 0
    · have hE0 : emittedOps p (firstDims p.template).1 (firstDims p.template).2 0 zip.Pages = [] := by
        apply List.length_eq_zero.mp
        rw [hlen, hk0]
      simp [Surface.finish, hE0, hk0]
    · have hEne : (emittedOps p (firstDims p.template).1 (firstDims p.template).2 0
          zip.Pages).isEmpty = false := by
        rcases he : emittedOps p (firstDims p.template).1 (firstDims p.template).2 0 zip.Pages with
          _ | ⟨a, t⟩
        · rw [he] at hlen
          simp at hlen
          exact absurd hlen.symm hk0
        · rfl
      have hcond2 : p.options.AllPages = true ∨ countIncl p zip.Pages < zip.Pages.length ∨
          zip.Pages.length = 1 ∨
          ((emittedOps p (firstDims p.template).1 (firstDims p.template).2 0
              zip.Pages).getLastD []).any isPaintOp = true := by
        rcases hc with h1 | h1 | h1
        · exact Or.inl h1
        · exact Or.inr (Or.inl (by omega))
        · exact absurd h1 hk0
      rw [if_neg hk0, if_pos hcond2]
      simp [Surface.finish, hEne, hlen]
  · rw [if_neg hc]
    push_neg at hc
    obtain ⟨hA, hkn, hk0⟩ := hc
    have hkeq : countIncl p zip.Pages = zip.Pages.length := by omega
    rw [if_neg hk0]
    by_cases hn1 : zip.Pages.length = 1
    · have hlen1 : (emittedOps p (firstDims p.template).1 (firstDims p.template).2 0
          zip.Pages).length = 1 := by
        rw [hlen, hkeq, hn1]
      have hdrop : (emittedOps p (firstDims p.template).1 (firstDims p.template).2 0
          zip.Pages).dropLast = [] := by
        apply List.length_eq_zero.mp
        rw [List.length_dropLast, hlen1]
      have hcond2 : p.options.AllPages = true ∨ countIncl p zip.Pages < zip.Pages.length ∨
          zip.Pages.length = 1 ∨
          ((emittedOps p (firstDims p.template).1 (firstDims p.template).2 0
              zip.Pages).getLastD []).any isPaintOp = true :=
        Or.inr (Or.inr (Or.inl hn1))
      rw [if_pos hcond2]
      simp [Surface.finish, hdrop]
      omega
    · have hdropne : ((emittedOps p (firstDims p.template).1 (firstDims p.template).2 0
          zip.Pages).dropLast).isEmpty = false := by
        rcases he : (emittedOps p (firstDims p.template).1 (firstDims p.template).2 0
            zip.Pages).dropLast with _ | ⟨a, t⟩
        · exfalso
          have := congrArg List.length he
          rw [List.length_dropLast, hlen] at this
          simp at this
          omega
        · rfl
      by_cases hp : ((emittedOps p (firstDims p.template).1 (firstDims p.template).2 0
          zip.Pages).getLastD []).any isPaintOp = true
      · have hcond2 : p.options.AllPages = true ∨ countIncl p zip.Pages < zip.Pages.length ∨
            zip.Pages.length = 1 ∨
            ((emittedOps p (firstDims p.template).1 (firstDims p.template).2 0
                zip.Pages).getLastD []).any isPaintOp = true :=
          Or.inr (Or.inr (Or.inr hp))
        rw [if_pos hcond2]
        rw [finish_of_paint _ _ hp]
        rw [List.length_append, List.nil_append, List.length_dropLast, hlen]
        simp only [List.length_singleton]
        omega
      · have hp' : ((emittedOps p (firstDims p.template).1 (firstDims p.template).2 0
            zip.Pages).getLastD []).any isPaintOp = false := Bool.eq_false_iff.mpr hp
        have hcond2 : ¬ (p.options.AllPages = true ∨ countIncl p zip.Pages < zip.Pages.length ∨
            zip.Pages.length = 1 ∨
            ((emittedOps p (firstDims p.template).1 (firstDims p.template).2 0
                zip.Pages).getLastD []).any isPaintOp = true) := by
          rintro (h1 | h1 | h1 | h1)
          · exact hA h1
          · omega
          · exact hn1 h1
          · exact hp h1
        rw [if_neg hcond2]
        rw [finish_of_blank _ _ (by rw [List.nil_append]; exact hdropne) hp']
        rw [List.nil_append, List.length_dropLast, hlen]

theorem firstDims_const (t : Bool) : firstDims t = rmPageSize := by
  simp [firstDims]

theorem pageOps_congr (p1 p2 : PdfGenerator) (hopt : p1.options = p2.options)
    (fw fh : ℚ) (cnt : ℕ) (pg : PageEntry) :
    pageOps p1 fw fh cnt pg = pageOps p2 fw fh cnt pg := by
  simp only [pageOps, hopt, ite_self]

theorem renderLoop_congr (p1 p2 : PdfGenerator) (hopt : p1.options = p2.options)
    (n : ℕ) (fw fh : ℚ) :
    ∀ (l : List PageEntry) (s : Surface) (cnt : ℕ),
      renderLoop p1 n fw fh l s cnt = renderLoop p2 n fw fh l s cnt := by
  intro l
  induction l with
  | nil => intro s cnt; rfl
  | cons pg rest ih =>
    intro s cnt
    simp only [renderLoop, hopt, pageOps_congr p1 p2 hopt, ih]

/-- generateAnnotationsOnly reads only the options and the page list: the
template flag is irrelevant because both branches of every template test use
the fixed fallback page size, and the background bytes are never consulted. -/
theorem generateAnnotationsOnly_congr (p1 p2 : PdfGenerator) (zip1 zip2 : Zip)
    (hopt : p1.options = p2.options) (hpg : zip1.Pages = zip2.Pages) :
    generateAnnotationsOnly p1 zip1 = generateAnnotationsOnly p2 zip2 := by
  unfold generateAnnotationsOnly
  rw [hpg, firstDims_const p1.template, firstDims_const p2.template]
  show (renderLoop p1 zip2.Pages.length rmPageSize.1 rmPageSize.2 zip2.Pages
      { pages := [], current := [] } 0).1.finish = (renderLoop p2 zip2.Pages.length
      rmPageSize.1 rmPageSize.2 zip2.Pages { pages := [], current := [] } 0).1.finish
  rw [renderLoop_congr p1 p2 hopt]

theorem generateWithBackground_mergeInputs (p : PdfGenerator) (zip : Zip)
    (mergeRaw : List (List ℕ) → Option (List ℕ)) :
    (generateWithBackground p zip mergeRaw).mergeInputs = [p.backgroundPDF.getD [], []] := by
  unfold generateWithBackground
  rcases h : mergeRaw [p.backgroundPDF.getD [], []] with _ | merged <;> simp [h]

/-! Concrete example material used by the claims below. -/

/-- A plain two-point stroke line (non-eraser, non-highlighter). -/
def exStrokeLine : Line :=
  { BrushType := BrushType.Other 0, BrushColor := BrushColor.Black, BrushSize := 1,
    Points := [{ X := 0, Y := 0 }, { X := 1, Y := 1 }] }

/-- A two-point eraser line. -/
def exEraserLine : Line :=
  { BrushType := BrushType.Eraser, BrushColor := BrushColor.Black, BrushSize := 1,
    Points := [{ X := 0, Y := 0 }, { X := 1, Y := 1 }] }

/-- A two-point highlighter line. -/
def exHighlighterLine : Line :=
  { BrushType := BrushType.HighlighterV5, BrushColor := BrushColor.Black, BrushSize := 1,
    Points := [{ X := 1, Y := 2 }, { X := 5, Y := 2 }] }

/-- Stroke data holding one drawable line. -/
def exStrokeRm : Rm := { Layers := [{ Lines := [exStrokeLine] }] }

/-- Stroke data holding nothing at all (present but paints nothing). -/
def exEmptyRm : Rm := { Layers := [] }

/-- Stroke data holding only an eraser line. -/
def exEraserRm : Rm := { Layers := [{ Lines := [exEraserLine] }] }

/-- Generator with no background, template mode, page numbers off. -/
def exGen (allPages : Bool) : PdfGenerator :=
  { options := { AddPageNumbers := false, AllPages := allPages, AnnotationsOnly := false },
    backgroundPDF := none, template := true }

/-- The 3-page document of the claim: only page 2 has content. -/
def exDoc3 : Zip :=
  { Content := { FileType := "notebook" }, Payload := [],
    Pages := [{ Data := none }, { Data := some exStrokeRm }, { Data := none }] }

/-- Two pages, both with stroke data, the second one drawing nothing. -/
def exDocTrailingBlank : Zip :=
  { Content := { FileType := "notebook" }, Payload := [],
    Pages := [{ Data := some exStrokeRm }, { Data := some exEmptyRm }] }

/-- Valid background-document bytes (PDF header plus payload). -/
def exBgBytes : List ℕ := [37, 80, 68, 70, 1, 2, 3]

/-- Generator state right after initBackgroundPages in overlay mode. -/
def exOv : PdfGenerator :=
  { options := { AddPageNumbers := false, AllPages := false, AnnotationsOnly := false },
    backgroundPDF := some exBgBytes, template := false }

/-- Generator state as built by CreatePdfGenerator (no background yet). -/
def exGen0 : PdfGenerator :=
  { options := { AddPageNumbers := false, AllPages := false, AnnotationsOnly := false },
    backgroundPDF := none, template := false }

/-- One-page archive with an annotated page and a background payload. -/
def exZipBg : Zip :=
  { Content := { FileType := "pdf" }, Payload := exBgBytes,
    Pages := [{ Data := some exStrokeRm }] }

/-! The claims. -/

/-- Claim C1, as amended.  For every document, the rendered page count equals
the number of non-skipped source pages (1 when every page is skipped), except
in the corner case where AllPages is off, no page was skipped, the document
has at least two pages and the final page's recorded operations paint nothing
(for example stroke data with no drawable line and page numbers off): then
the final page receives no page-advance, stays blank, is suppressed at finish,
and the count is one less.  The claim's 3-page example renders 1 page with
AllPages=false and 3 pages with AllPages=true. -/
theorem claim_C1 :
    (∀ (p : PdfGenerator) (zip : Zip),
      (generateAnnotationsOnly p zip).length =
        (if countIncl p zip.Pages = 0 then 1
         else if p.options.AllPages = true ∨ countIncl p zip.Pages < zip.Pages.length ∨
                 zip.Pages.length = 1 ∨
                 ((emittedOps p (firstDims p.template).1 (firstDims p.template).2 0
                     zip.Pages).getLastD []).any isPaintOp = true then
           countIncl p zip.Pages
         else countIncl p zip.Pages - 1)) ∧
    (generateAnnotationsOnly (exGen false) exDoc3).length = 1 ∧
    (generateAnnotationsOnly (exGen true) exDoc3).length = 3 :=
  ⟨generateAnnotationsOnly_length, by decide, by decide⟩

/-- Claim C1 counterexample.  exDocTrailingBlank has two pages, both carrying
stroke data, so the claim predicts 2 output pages with AllPages=false; the
render yields 1, because the second page's stroke data paints nothing, the
page receives no page-advance (pageCount equals the source page count), and
the blank pending page is suppressed at finish.  The last conjunct refutes the
trailing-advance part on the claim's own 3-page example: after the loop the
pending page is empty and one page was emitted, i.e. the final non-skipped
page (page 2, with pageCount 1 < 3) did issue a page-advance. -/
theorem claim_C1_counterexample :
    (exDocTrailingBlank.Pages.filter (fun pg => pg.Data.isSome)).length = 2 ∧
    (generateAnnotationsOnly (exGen false) exDocTrailingBlank).length = 1 ∧
    ((renderLoop (exGen false) 3 rmPageSize.1 rmPageSize.2 exDoc3.Pages
        { pages := [], current := [] } 0).1.current = [] ∧
     (renderLoop (exGen false) 3 rmPageSize.1 rmPageSize.2 exDoc3.Pages
        { pages := [], current := [] } 0).1.pages.length = 1) := by
  refine ⟨by decide, by decide, by decide, by decide⟩

/-- Claim C2 (code-bug evidence).  In overlay mode Generate routes through
generateWithBackground, whose merge call receives the background bytes first
and the EMPTY temp file second: the annotation layer was never written into
that temp file (generateAnnotationsOnly wrote it to the final output path,
which os.Create then truncates), even though the rendered annotation-layer
document is non-empty. -/
theorem claim_C2 (mergeRaw : List (List ℕ) → Option (List ℕ)) :
    Generate exGen0 exZipBg mergeRaw =
      GenResult.overlay (generateWithBackground exOv exZipBg mergeRaw) ∧
    (generateWithBackground exOv exZipBg mergeRaw).mergeInputs = [exBgBytes, []] ∧
    pdfBytes (generateAnnotationsOnly exOv exZipBg) ≠ [] := by
  refine ⟨rfl, ?_, by decide⟩
  rw [generateWithBackground_mergeInputs]
  rfl

/-- Claim C3, as amended.  When the merge collaborator fails, the overlay run
returns a composition error, but the output is not staged: the destination
file was already created and truncated before the merge, so an empty
(partial) file is left at the destination path. -/
theorem claim_C3 (p : PdfGenerator) (zip : Zip)
    (mergeRaw : List (List ℕ) → Option (List ℕ))
    (h : mergeRaw [p.backgroundPDF.getD [], []] = none) :
    (generateWithBackground p zip mergeRaw).err = true ∧
    (generateWithBackground p zip mergeRaw).destContent = [] := by
  simp [generateWithBackground, h]

/-- Claim C3 witness: the amended claim at a concrete overlay run with a
failing merge collaborator. -/
theorem claim_C3_witness :
    (generateWithBackground exOv exZipBg (fun _ => none)).err = true ∧
    (generateWithBackground exOv exZipBg (fun _ => none)).destContent = [] :=
  claim_C3 exOv exZipBg (fun _ => none) rfl

/-- Claim C3 counterexample.  On merge failure the call reports an error,
yet the destination file exists and is truncated to empty — it no longer
holds the (non-empty) annotation document that the render step had written
there, and no staging location protected the destination. -/
theorem claim_C3_counterexample :
    (generateWithBackground exOv exZipBg (fun _ => none)).err = true ∧
    (generateWithBackground exOv exZipBg (fun _ => none)).destContent = [] ∧
    pdfBytes (generateAnnotationsOnly exOv exZipBg) ≠ [] := by
  refine ⟨by decide, by decide, by decide⟩

/-- Claim C4.  With a background present (a parseable payload) and
AnnotationsOnly set, Generate produces exactly the result it produces with
no background supplied: the run is routed to the blank path and the
rendering ignores the background and template fields entirely.  Moreover the
mode decision is Overlay exactly when a background is present and
AnnotationsOnly is false. -/
theorem claim_C4 (p : PdfGenerator) (zip : Zip)
    (mergeRaw : List (List ℕ) → Option (List ℕ))
    (hbg : pdfParses zip.Payload = true) (hann : p.options.AnnotationsOnly = true) :
    Generate p zip mergeRaw = Generate p { zip with Payload := [] } mergeRaw ∧
    (∀ q : PdfGenerator, generateMode q = GenMode.Overlay ↔
      (q.backgroundPDF.isSome = true ∧ q.options.AnnotationsOnly = false)) := by
  constructor
  · have hlen : 0 < zip.Payload.length := by
      rcases hpay : zip.Payload with _ | ⟨a, t⟩
      · rw [hpay] at hbg
        simp [pdfParses] at hbg
      · simp
    unfold Generate
    by_cases hft : zip.Content.FileType = "epub"
    · simp [hft]
    · simp only [initBackgroundPages, hft, if_neg, hlen, if_pos, hbg, if_true]
      simp only [List.length_nil, lt_irrefl, if_false]
      simp [hann]
      by_cases hpg : zip.Pages = []
      · simp [hpg]
      · simp [hpg]
        exact generateAnnotationsOnly_congr _ _ _ _ rfl rfl
  · intro q
    unfold generateMode
    rcases hb : q.backgroundPDF.isSome with _ | _ <;>
      rcases ha : q.options.AnnotationsOnly with _ | _ <;>
        simp [hb, ha]

/-- Claim C4 witness: concrete one-page document with a valid background and
AnnotationsOnly set; the output equals the no-background run byte for byte. -/
theorem claim_C4_witness :
    Generate
      { options := { AddPageNumbers := false, AllPages := false, AnnotationsOnly := true },
        backgroundPDF := none, template := false } exZipBg (fun _ => none) =
    Generate
      { options := { AddPageNumbers := false, AllPages := false, AnnotationsOnly := true },
        backgroundPDF := none, template := false } { exZipBg with Payload := [] }
      (fun _ => none) :=
  (claim_C4 _ exZipBg (fun _ => none) (by decide) rfl).1

/-- Claim C5.  The device-to-PDF mapping is x = point.x * scale and
y = pageHeight - point.y * scale, and the per-page scale is
pageWidth / 1404 when pageHeight / pageWidth < 1.33 and
pageHeight / 1872 otherwise. -/
theorem claim_C5 :
    (∀ (pt : Point) (scale pageHeight : ℚ),
      mappedPoint pt scale pageHeight = (pt.X * scale, pageHeight - pt.Y * scale)) ∧
    (∀ pageWidth pageHeight : ℚ,
      (pageHeight / pageWidth < 1.33 → scaleFor pageWidth pageHeight = pageWidth / 1404) ∧
      (¬ pageHeight / pageWidth < 1.33 → scaleFor pageWidth pageHeight = pageHeight / 1872)) := by
  constructor
  · intro pt scale pageHeight
    rfl
  · intro pageWidth pageHeight
    constructor <;> intro hc <;>
      simp [scaleFor, DeviceWidth, DeviceHeight, hc]

/-- Claim C5 witness: a concrete point mapping and the fallback page size's
scale (594/445 is not below 1.33, so the height rule applies). -/
theorem claim_C5_witness :
    mappedPoint { X := 3, Y := 4 } 2 100 = (3 * 2, 100 - 4 * 2) ∧
    scaleFor 445 594 = 594 / 1872 :=
  ⟨claim_C5.1 { X := 3, Y := 4 } 2 100,
   (claim_C5.2 445 594).2 (by norm_num)⟩

/-- Claim C6.  A highlighter line with at least 2 points draws exactly one
straight band: from the first point's mapped X to the last point's mapped X,
at constant Y = pageHeight - (first.y * scale + (scale * 30) / 2), with
line width scale * 30, color (1,1,0) at alpha 1/2 and butt caps; fewer than
2 points draw nothing. -/
theorem claim_C6 (line : Line) (scale pageHeight : ℚ) :
    (line.Points.length < 2 → drawHighlighter line scale pageHeight = []) ∧
    (∀ (p0 p1 : Point) (rest : List Point), line.Points = p0 :: p1 :: rest →
      drawHighlighter line scale pageHeight =
        [DrawOp.SetSourceRGBA 1 1 0 (1/2),
         DrawOp.SetLineWidth (scale * 30),
         DrawOp.SetLineCap LineCap.Butt,
         DrawOp.MoveTo (p0.X * scale) (pageHeight - (p0.Y * scale + scale * 30 / 2)),
         DrawOp.LineTo (((p1 :: rest).getLastD p0).X * scale)
           (pageHeight - (p0.Y * scale + scale * 30 / 2)),
         DrawOp.Stroke]) := by
  constructor
  · intro hlen
    rcases hP : line.Points with _ | ⟨a, _ | ⟨b, t⟩⟩
    · simp [drawHighlighter, hP]
    · simp [drawHighlighter, hP]
    · rw [hP] at hlen
      simp at hlen
      omega
  · intro p0 p1 rest hP
    simp [drawHighlighter, hP, normalized]
    norm_num

/-- Claim C6 witness: the band drawn for a concrete 2-point highlighter line
at scale 2 on a height-100 page. -/
theorem claim_C6_witness :
    drawHighlighter exHighlighterLine 2 100 =
      [DrawOp.SetSourceRGBA 1 1 0 (1/2), DrawOp.SetLineWidth 60,
       DrawOp.SetLineCap LineCap.Butt, DrawOp.MoveTo 2 66, DrawOp.LineTo 10 66,
       DrawOp.Stroke] := by
  have h := (claim_C6 exHighlighterLine 2 100).2 { X := 1, Y := 2 } { X := 5, Y := 2 } [] rfl
  rw [h]
  norm_num [List.getLastD]

/-- Claim C7.  The stroke color is (0,0,0) for Black, (1,1,1) for White,
(1/2,1/2,1/2) for Grey and (0,0,0) for any unrecognized color; the stroke
width is BrushSize*6.0 - 10.8 with a 0.5 floor; and drawStroke's first two
operations set exactly that color and width. -/
theorem claim_C7 :
    (strokeRGB BrushColor.Black = (0, 0, 0) ∧ strokeRGB BrushColor.White = (1, 1, 1) ∧
     strokeRGB BrushColor.Grey = (1/2, 1/2, 1/2) ∧
     ∀ code : ℕ, strokeRGB (BrushColor.Other code) = (0, 0, 0)) ∧
    (∀ brushSize : ℚ, strokeWidth brushSize = max (brushSize * 6.0 - 10.8) 0.5) ∧
    (∀ (line : Line) (scale pageHeight : ℚ), line.Points ≠ [] →
      (drawStroke line scale pageHeight).take 2 =
        [DrawOp.SetSourceRGB (strokeRGB line.BrushColor).1 (strokeRGB line.BrushColor).2.1
           (strokeRGB line.BrushColor).2.2,
         DrawOp.SetLineWidth (strokeWidth line.BrushSize)]) := by
  refine ⟨⟨rfl, rfl, rfl, fun code => rfl⟩, ?_, ?_⟩
  · intro brushSize
    unfold strokeWidth
    rcases lt_or_le (brushSize * 6.0 - 10.8) 0.5 with hlt | hle
    · rw [if_pos hlt, max_eq_right hlt.le]
    · rw [if_neg (not_lt.mpr hle), max_eq_left hle]
  · intro line scale pageHeight hne
    have hlen : ¬ line.Points.length < 1 := by
      have := List.length_pos.mpr hne
      omega
    unfold drawStroke
    rw [if_neg hlen]
    rfl

/-- Claim C7 witness: the first two operations of a concrete black stroke of
brush size 1 (width clamped up to the 0.5 floor). -/
theorem claim_C7_witness :
    (drawStroke exStrokeLine 2 100).take 2 =
      [DrawOp.SetSourceRGB 0 0 0, DrawOp.SetLineWidth (1/2)] := by
  have h := claim_C7.2.2 exStrokeLine 2 100 (by decide)
  rw [h]
  norm_num [exStrokeLine, strokeRGB, strokeWidth]

/-- Claim C8 counterexample.  BrushSize = 2.0 yields stroke width
2.0*6.0 - 10.8 = 1.2, which is above the 0.5 floor, so the claimed value
0.5 is wrong. -/
theorem claim_C8_counterexample : strokeWidth 2.0 ≠ 0.5 := by
  norm_num [strokeWidth]

/-- Claim C8, as amended.  BrushSize = 2.0 yields width 1.2 (the formula
value already exceeds the 0.5 floor, so no clamping happens), and
BrushSize = 3.0 yields width 7.2. -/
theorem claim_C8 : strokeWidth 2.0 = 1.2 ∧ strokeWidth 3.0 = 7.2 := by
  norm_num [strokeWidth]

/-- Claim C9.  A line whose brush type is Eraser, or whose point sequence is
empty, renders no operation at all; and stroke data consisting solely of
eraser lines renders only the enclosing save/restore pair, with zero painted
elements — the same painted-element count as a blank page. -/
theorem claim_C9 :
    (∀ (line : Line) (scale pageHeight : ℚ),
      line.BrushType = BrushType.Eraser ∨ line.Points = [] →
      lineOps line scale pageHeight = []) ∧
    (∀ (rm : Rm) (scale pageHeight : ℚ),
      (∀ layer ∈ rm.Layers, ∀ line ∈ layer.Lines, line.BrushType = BrushType.Eraser) →
      drawAnnotations rm scale pageHeight = [DrawOp.Save, DrawOp.Restore] ∧
      drawnElements (drawAnnotations rm scale pageHeight) = drawnElements []) := by
  have hline : ∀ (line : Line) (scale pageHeight : ℚ),
      line.BrushType = BrushType.Eraser ∨ line.Points = [] →
      lineOps line scale pageHeight = [] := by
    intro line scale pageHeight hc
    rcases hc with hc | hc
    · by_cases hl : line.Points.length < 1
      · simp [lineOps, hl]
      · simp [lineOps, hl, hc]
    · simp [lineOps, hc]
  refine ⟨hline, ?_⟩
  intro rm scale pageHeight hall
  have hnil : (rm.Layers.flatMap fun layer =>
      layer.Lines.flatMap fun line => lineOps line scale pageHeight) = [] := by
    refine List.flatMap_eq_nil_iff.mpr ?_
    intro layer hlayer
    refine List.flatMap_eq_nil_iff.mpr ?_
    intro line hline2
    exact hline line scale pageHeight (Or.inl (hall layer hlayer line hline2))
  constructor
  · simp [drawAnnotations, hnil]
  · simp [drawAnnotations, hnil, drawnElements, isPaintOp]

/-- Claim C9 witness: a concrete eraser line renders nothing, and stroke data
holding only that line renders just the save/restore pair. -/
theorem claim_C9_witness :
    lineOps exEraserLine 2 100 = [] ∧
    drawAnnotations exEraserRm 2 100 = [DrawOp.Save, DrawOp.Restore] :=
  ⟨claim_C9.1 exEraserLine 2 100 (Or.inl rfl),
   (claim_C9.2 exEraserRm 2 100 (by decide)).1⟩

/-- Claim C10.  The first-page dimensions are the fixed fallback 445 x 594
for both template settings (with or without a background), and the scale used
for the annotations of every included page is computed from those first-page
dimensions only — the same scaleFor firstWidth firstHeight for every page
index, unaffected by the resize operation recorded for pages after the
first.  For the fallback size that common scale is 594/1872. -/
theorem claim_C10 :
    (∀ t : Bool, firstDims t = (445, 594)) ∧
    (∀ (p : PdfGenerator) (fw fh : ℚ) (cnt : ℕ) (pg : PageEntry) (rm : Rm),
      pg.Data = some rm →
      pageOps p fw fh cnt pg =
        (if 1 < cnt then [DrawOp.SetPageSize 445 594] else []) ++
        drawAnnotations rm (scaleFor fw fh) fh ++
        (if p.options.AddPageNumbers then drawPageNumber cnt fw fh else [])) ∧
    scaleFor (firstDims true).1 (firstDims true).2 = 594 / 1872 ∧
    scaleFor (firstDims false).1 (firstDims false).2 = 594 / 1872 := by
  refine ⟨?_, ?_,
    by norm_num [scaleFor, firstDims, rmPageSize, DeviceWidth, DeviceHeight],
    by norm_num [scaleFor, firstDims, rmPageSize, DeviceWidth, DeviceHeight]⟩
  · intro t
    rw [firstDims_const]
    rfl
  · intro p fw fh cnt pg rm hData
    simp [pageOps, hData, rmPageSize, List.append_assoc]

/-- Claim C10 witness: the operations of a concrete content page at output
index 2 — resized to the fallback size and drawn at scale scaleFor fw fh. -/
theorem claim_C10_witness :
    pageOps (exGen false) 445 594 2 { Data := some exStrokeRm } =
      (if 1 < 2 then [DrawOp.SetPageSize 445 594] else []) ++
      drawAnnotations exStrokeRm (scaleFor 445 594) 594 ++
      (if (exGen false).options.AddPageNumbers then drawPageNumber 2 445 594 else []) :=
  claim_C10.2.1 (exGen false) 445 594 2 { Data := some exStrokeRm } exStrokeRm rfl

end Rmapi
